import Mathlib

/-!
# hornet_db_dump: the export pipeline of `main.go`

A shallow embedding of `main.go`: the `Dump` row, the callback that `main`
hands to `tangle.ForEachTransactionMetadataHash`, and `writeToFile`.

The collaborators that live outside the repository are parameters of the
model, gathered in `Env`: the two cached stores, `Hash.Trytes`,
`transaction.TransactionToTrytes`, `json.MarshalIndent` and the outcome of
each `WriteString` system call.  A concrete model of `json.MarshalIndent`
on the `Dump` struct (`jsonMarshalIndent`) and of the file opened by
`os.OpenFile` (`File`, `openFile`) is given as well.
-/

namespace HornetDbDump

/-! ## Data model -/

/-- Go `trinary.Trytes` is a string type. -/
abbrev Trytes := String

/-- File contents: a sequence of bytes. -/
abbrev Bytes := List Nat

/-- Sentinel error text of `ErrTxMetadataNotFound`. -/
def ErrTxMetadataNotFound : String := "tx metadata not found"

/-- Sentinel error text of `ErrTxNotFound`. -/
def ErrTxNotFound : String := "tx not found"

/-- The `Dump` struct of `main.go` (lines 25-38); `confirmationIndex` is the
one field whose Go name starts with a lower-case letter. -/
structure Dump where
  TxHash : Trytes
  TrunkHash : Trytes
  BranchHash : Trytes
  BundleHash : Trytes
  confirmationIndex : Nat
  IsSolid : Bool
  IsConfirmed : Bool
  IsConflicting : Bool
  IsHead : Bool
  IsTail : Bool
  IsValue : Bool
  Trytes : Trytes
  deriving DecidableEq

/-- The part of hornet's `TransactionMetadata` that `main` reads: the hash the
metadata reports as its own, the three links, the flag bits and the
confirmation index. -/
structure TransactionMetadata (Hash : Type) where
  txHash : Hash
  trunkHash : Hash
  branchHash : Hash
  bundleHash : Hash
  solid : Bool
  confirmed : Bool
  conflicting : Bool
  isHead : Bool
  isTail : Bool
  isValue : Bool
  confirmationIndex : Nat
  deriving DecidableEq

namespace TransactionMetadata

variable {Hash : Type}

def GetTxHash (m : TransactionMetadata Hash) : Hash := m.txHash
def GetTrunkHash (m : TransactionMetadata Hash) : Hash := m.trunkHash
def GetBranchHash (m : TransactionMetadata Hash) : Hash := m.branchHash
def GetBundleHash (m : TransactionMetadata Hash) : Hash := m.bundleHash
def IsSolid (m : TransactionMetadata Hash) : Bool := m.solid
def IsConflicting (m : TransactionMetadata Hash) : Bool := m.conflicting
def IsHead (m : TransactionMetadata Hash) : Bool := m.isHead
def IsTail (m : TransactionMetadata Hash) : Bool := m.isTail
def IsValue (m : TransactionMetadata Hash) : Bool := m.isValue
def GetConfirmed (m : TransactionMetadata Hash) : Bool × Nat := (m.confirmed, m.confirmationIndex)

end TransactionMetadata

/-! ## The output file -/

/-- The flag bits of `os.OpenFile` that matter for where writes land. -/
structure OpenFlags where
  create : Bool
  wronly : Bool
  append : Bool
  trunc : Bool
  deriving DecidableEq

/-- The flags `main` passes (line 53): `os.O_CREATE|os.O_WRONLY`. -/
def mainFlags : OpenFlags :=
  { create := true, wronly := true, append := false, trunc := false }

/-- An open file: its contents, the descriptor's write offset, whether the
descriptor is in append mode, and how many `WriteString` calls it has served. -/
structure File where
  content : Bytes
  offset : Nat
  append : Bool
  calls : Nat
  deriving DecidableEq

/-- Opening a path whose current contents are `existing` (`none`: no such file).
Without `O_CREATE` a missing file is an error; `O_TRUNC` empties an existing
file; the offset of a fresh descriptor is 0. -/
def openFile (flags : OpenFlags) (existing : Option Bytes) : Except String File :=
  match existing with
  | none =>
    if flags.create then .ok { content := [], offset := 0, append := flags.append, calls := 0 }
    else .error "no such file or directory"
  | some c =>
    .ok { content := if flags.trunc then [] else c, offset := 0, append := flags.append, calls := 0 }

/-- Bytes `bs` stored at position `off` of `content`: what lies before `off`
stays (a gap is zero-filled), `bs` replaces what it covers, the rest stays. -/
def writeAt (content : Bytes) (off : Nat) (bs : Bytes) : Bytes :=
  content.take off ++ List.replicate (off - content.length) 0 ++ bs ++ content.drop (off + bs.length)

/-- UTF-8 bytes of one code point. -/
def utf8EncodeNat (c : Nat) : Bytes :=
  if c < 0x80 then [c]
  else if c < 0x800 then [0xC0 + c / 64, 0x80 + c % 64]
  else if c < 0x10000 then [0xE0 + c / 4096, 0x80 + c / 64 % 64, 0x80 + c % 64]
  else [0xF0 + c / 262144, 0x80 + c / 4096 % 64, 0x80 + c / 64 % 64, 0x80 + c % 64]

/-- The bytes of a string. -/
def utf8 (s : String) : Bytes :=
  s.data.flatMap fun c => utf8EncodeNat c.toNat

/-- Outcome of one `WriteString` call: everything written, or an error after
some leading bytes were written. -/
inductive WriteOutcome where
  | ok
  | fail (written : Nat)
  deriving DecidableEq

/-- `f.WriteString(s)` under the given outcome; the Boolean is `err == nil`.
An append-mode descriptor writes at the end of the file, any other at its
offset; the offset moves past what was written. -/
def File.WriteString (f : File) (outcome : WriteOutcome) (s : String) : File × Bool :=
  let bs := utf8 s
  let pos := if f.append then f.content.length else f.offset
  match outcome with
  | .ok =>
    ({ f with content := writeAt f.content pos bs, offset := pos + bs.length, calls := f.calls + 1 }, true)
  | .fail n =>
    let part := bs.take n
    ({ f with content := writeAt f.content pos part, offset := pos + part.length, calls := f.calls + 1 }, false)

/-! ## `json.MarshalIndent` on a `Dump` -/

/-- A JSON scalar of the kinds `Dump` holds. -/
inductive JVal where
  | str (s : String)
  | bool (b : Bool)
  | num (n : Nat)
  deriving DecidableEq

/-- Every field of the `Dump` struct, in declaration order, under its Go name. -/
def Dump.fields (d : Dump) : List (String × JVal) :=
  [ ("TxHash", .str d.TxHash),
    ("TrunkHash", .str d.TrunkHash),
    ("BranchHash", .str d.BranchHash),
    ("BundleHash", .str d.BundleHash),
    ("confirmationIndex", .num d.confirmationIndex),
    ("IsSolid", .bool d.IsSolid),
    ("IsConfirmed", .bool d.IsConfirmed),
    ("IsConflicting", .bool d.IsConflicting),
    ("IsHead", .bool d.IsHead),
    ("IsTail", .bool d.IsTail),
    ("IsValue", .bool d.IsValue),
    ("Trytes", .str d.Trytes) ]

/-- Go's rule for an exported identifier: it starts with an upper-case letter.
`encoding/json` only sees exported struct fields. -/
def isExported (name : String) : Bool :=
  match name.data with
  | [] => false
  | c :: _ => c.isUpper

/-- The fields `encoding/json` serializes. -/
def Dump.exportedFields (d : Dump) : List (String × JVal) :=
  d.fields.filter fun kv => isExported kv.1

def hexDigit (n : Nat) : Char :=
  "0123456789abcdef".data.getD n '0'

def backslash : Char := Char.ofNat 92
def dquote : Char := Char.ofNat 34

/-- The form `\u00XX`/`\uXXXX` of a code point below 0x10000. -/
def unicodeEscape (n : Nat) : List Char :=
  [backslash, 'u', hexDigit (n / 4096 % 16), hexDigit (n / 256 % 16), hexDigit (n / 16 % 16), hexDigit (n % 16)]

/-- One character of a JSON string as `encoding/json` writes it with HTML
escaping on (the default of `Marshal`). -/
def escapeChar (c : Char) : List Char :=
  if c = dquote then [backslash, dquote]
  else if c = backslash then [backslash, backslash]
  else if c = '\n' then [backslash, 'n']
  else if c = '\r' then [backslash, 'r']
  else if c = '\t' then [backslash, 't']
  else if c.toNat < 0x20 ∨ c = '<' ∨ c = '>' ∨ c = '&' then unicodeEscape c.toNat
  else if c.toNat = 0x2028 ∨ c.toNat = 0x2029 then unicodeEscape c.toNat
  else [c]

def encodeString (s : String) : String :=
  ⟨dquote :: (s.data.flatMap escapeChar ++ [dquote])⟩

def encodeValue : JVal → String
  | .str s => encodeString s
  | .bool b => if b then "true" else "false"
  | .num n => toString n

/-- One `"key": value` line of the indented object. -/
def encodeMember (pfx indent : String) (kv : String × JVal) : String :=
  pfx ++ indent ++ encodeString kv.1 ++ ": " ++ encodeValue kv.2

/-- An object with the given members, laid out as `json.Indent` does. -/
def encodeObject (pfx indent : String) (members : List (String × JVal)) : String :=
  let lbrace := String.singleton (Char.ofNat 123)
  let rbrace := String.singleton (Char.ofNat 125)
  match members with
  | [] => lbrace ++ rbrace
  | _ => lbrace ++ "\n" ++ ",\n".intercalate (members.map (encodeMember pfx indent)) ++ "\n" ++ pfx ++ rbrace

/-- `json.MarshalIndent(dump, pfx, indent)`: never an error on a `Dump`. -/
def jsonMarshalIndent (dump : Dump) (pfx indent : String) : Except String String :=
  .ok (encodeObject pfx indent dump.exportedFields)

/-! ## The collaborators of the pipeline -/

/-- What the pipeline is run against. `writeOutcome n` is the outcome of the
`n`-th `WriteString` call on the output file (counted from 0). -/
structure Env (Hash Tx : Type) where
  hashTrytes : Hash → Trytes
  GetCachedTransactionOrNil : Hash → Option Tx
  TransactionToTrytes : Tx → Except String Trytes
  GetCachedTxMetadataOrNil : Hash → Option (TransactionMetadata Hash)
  MarshalIndent : Dump → String → String → Except String String
  writeOutcome : Nat → WriteOutcome

/-- The variables the callback closes over (`totalCount`, `successCount`, `f`),
the log stream, and counters of acquired and released cache handles. -/
structure RunState where
  totalCount : Nat
  successCount : Nat
  f : File
  log : List String
  txAcquired : Nat
  txReleased : Nat
  metaAcquired : Nat
  metaReleased : Nat
  deriving DecidableEq

/-- `log.Println(line)`. -/
def RunState.println (s : RunState) (line : String) : RunState :=
  { s with log := s.log ++ [line] }

/-- State at line 59: both counters 0, the file just opened. -/
def RunState.init (f : File) : RunState :=
  { totalCount := 0, successCount := 0, f := f, log := [],
    txAcquired := 0, txReleased := 0, metaAcquired := 0, metaReleased := 0 }

/-- Handles acquired and not yet released. -/
def RunState.outstanding (s : RunState) : Int :=
  ((s.txAcquired : Int) - s.txReleased) + ((s.metaAcquired : Int) - s.metaReleased)

section Pipeline

variable {Hash Tx : Type}

/-- `writeToFile` (lines 107-121). The log line of a failed write carries the
operating system's error text, which is kept abstract here. -/
def writeToFile (env : Env Hash Tx) (s : RunState) (dump : Dump) : RunState × Bool :=
  match env.MarshalIndent dump "" "    " with
  | .error err => (s.println ("err marshalling dump: " ++ err), false)
  | .ok jsonStr =>
    match s.f.WriteString (env.writeOutcome s.f.calls) (jsonStr ++ "\n") with
    | (f, false) => (({ s with f := f }).println "err writing to file: write error", false)
    | (f, true) => (({ s with f := f }).println (dump.TxHash ++ "  done..."), true)

/-- The struct literal of lines 82-96. -/
def buildDump (env : Env Hash Tx) (txMetadata : TransactionMetadata Hash) (trytes : Trytes) : Dump :=
  let (isConfirmed, confirmationIndex) := txMetadata.GetConfirmed
  { TxHash := env.hashTrytes txMetadata.GetTxHash,
    TrunkHash := env.hashTrytes txMetadata.GetTrunkHash,
    BranchHash := env.hashTrytes txMetadata.GetBranchHash,
    BundleHash := env.hashTrytes txMetadata.GetBranchHash,
    confirmationIndex := confirmationIndex,
    IsSolid := txMetadata.IsSolid,
    IsConfirmed := isConfirmed,
    IsConflicting := txMetadata.IsConflicting,
    IsHead := txMetadata.IsHead,
    IsTail := txMetadata.IsTail,
    IsValue := txMetadata.IsValue,
    Trytes := trytes }

/-- The callback of lines 62-102. Each `defer x.Release()` is the release
applied to whatever state the rest of the body returns. -/
def callback (env : Env Hash Tx) (s : RunState) (txHash : Hash) : RunState × Bool :=
  let s := { s with totalCount := s.totalCount + 1 }
  match env.GetCachedTransactionOrNil txHash with
  | none =>
    (s.println ("tx " ++ env.hashTrytes txHash ++ " not found: " ++ ErrTxNotFound), true)
  | some cachedTx =>
    let s := { s with txAcquired := s.txAcquired + 1 }
    let r : RunState × Bool :=
      match env.TransactionToTrytes cachedTx with
      | .error err =>
        (s.println ("cannot convert transaction to trytes: " ++ err), true)
      | .ok trytes =>
        match env.GetCachedTxMetadataOrNil txHash with
        | none =>
          (s.println ("tx metadata " ++ env.hashTrytes txHash ++ " not found: " ++ ErrTxMetadataNotFound), true)
        | some txMetadata =>
          let s := { s with metaAcquired := s.metaAcquired + 1 }
          let r : RunState × Bool :=
            let dump := buildDump env txMetadata trytes
            match writeToFile env s dump with
            | (s, true) => ({ s with successCount := s.successCount + 1 }, true)
            | (s, false) => (s, true)
          ({ r.1 with metaReleased := r.1.metaReleased + 1 }, r.2)
    ({ r.1 with txReleased := r.1.txReleased + 1 }, r.2)

/-- `tangle.ForEachTransactionMetadataHash`: every key of the index is handed
to the consumer, in index order; a consumer returning `false` stops the walk.
The index is the list of keys; the `skipCache` flag has no part in the model. -/
def ForEachTransactionMetadataHash (consumer : RunState → Hash → RunState × Bool) :
    List Hash → RunState → RunState
  | [], s => s
  | h :: rest, s =>
    match consumer s h with
    | (s', true) => ForEachTransactionMetadataHash consumer rest s'
    | (s', false) => s'

/-- Lines 59-102: the walk of the whole index with the export callback. -/
def exportAll (env : Env Hash Tx) (index : List Hash) (s : RunState) : RunState :=
  ForEachTransactionMetadataHash (callback env) index s

/-- `main` (lines 40-105) on an index, a database path and the current contents
of the output path; an error is a `log.Fatal`. -/
def main (env : Env Hash Tx) (index : List Hash) (storageSize : Nat)
    (dbPath : String) (existing : Option Bytes) : Except String RunState :=
  if dbPath = "" then .error "dbPath is required"
  else
    match openFile mainFlags existing with
    | .error err => .error ("cannot open file: " ++ err)
    | .ok f =>
      let s := (RunState.init f).println (toString storageSize)
      let s := exportAll env index s
      let s := s.println ("Total txs:  " ++ toString s.totalCount)
      .ok (s.println ("Success:  " ++ toString s.successCount))

end Pipeline

/-! ## Specification-side definitions -/

section Spec

variable {Hash Tx : Type}

/-- The string the callback hands to `WriteString` for key `h`, if it gets that far. -/
def rowText (env : Env Hash Tx) (h : Hash) : Option String :=
  match env.GetCachedTransactionOrNil h with
  | none => none
  | some tx =>
    match env.TransactionToTrytes tx with
    | .error _ => none
    | .ok t =>
      match env.GetCachedTxMetadataOrNil h with
      | none => none
      | some m =>
        match env.MarshalIndent (buildDump env m t) "" "    " with
        | .error _ => none
        | .ok js => some (js ++ "\n")

/-- Record handles the callback acquires for key `h`: one when the record lookup
returns a record, none when it returns nil. -/
def txHandles (env : Env Hash Tx) (h : Hash) : Nat :=
  match env.GetCachedTransactionOrNil h with
  | none => 0
  | some _ => 1

/-- Metadata handles the callback acquires for key `h`: one when the metadata
lookup is reached and returns metadata, none otherwise. -/
def metaHandles (env : Env Hash Tx) (h : Hash) : Nat :=
  match env.GetCachedTransactionOrNil h with
  | none => 0
  | some tx =>
    match env.TransactionToTrytes tx with
    | .error _ => 0
    | .ok _ =>
      match env.GetCachedTxMetadataOrNil h with
      | none => 0
      | some _ => 1

/-- The four conditions of success for key `h` visited in state `s`: the record
lookup returns a record, `TransactionToTrytes` succeeds on it, the metadata
lookup returns metadata, and `writeToFile` returns true on the row. -/
def itemSucceeds (env : Env Hash Tx) (s : RunState) (h : Hash) : Bool :=
  match env.GetCachedTransactionOrNil h with
  | none => false
  | some tx =>
    match env.TransactionToTrytes tx with
    | .error _ => false
    | .ok t =>
      match env.GetCachedTxMetadataOrNil h with
      | none => false
      | some m => (writeToFile env s (buildDump env m t)).2

/-- Number of index entries that succeed, each judged in the state the run has
reached when the entry is visited. -/
def successfulEntries (env : Env Hash Tx) (index : List Hash) (s0 : RunState) : Nat :=
  (List.range index.length).countP fun i =>
    match index[i]? with
    | some h => itemSucceeds env (exportAll env (index.take i) s0) h
    | none => false

/-- The per-item failures of the claim: record absent, decode error, metadata
absent, or `MarshalIndent` failing on the row. -/
def recoverableFailure (env : Env Hash Tx) (h : Hash) : Bool :=
  match env.GetCachedTransactionOrNil h with
  | none => true
  | some tx =>
    match env.TransactionToTrytes tx with
    | .error _ => true
    | .ok t =>
      match env.GetCachedTxMetadataOrNil h with
      | none => true
      | some m =>
        match env.MarshalIndent (buildDump env m t) "" "    " with
        | .error _ => true
        | .ok _ => false

/-- File `f1` is file `f2` laid over the older contents `c`: same descriptor
state, and `f1` still shows the bytes of `c` beyond what `f2` holds. -/
def Overlay (c : Bytes) (f1 f2 : File) : Prop :=
  f1.append = false ∧ f2.append = false ∧ f1.offset = f2.content.length ∧
  f2.offset = f2.content.length ∧ f1.calls = f2.calls ∧
  f1.content = f2.content ++ c.drop f2.content.length

end Spec

/-! ## Concrete stores used in the examples -/

/-- The descriptor `os.OpenFile` returns for a path that did not exist. -/
def freshFile : File :=
  { content := [], offset := 0, append := false, calls := 0 }

/-- Metadata of `H1` in the end-to-end example of the specification. -/
def exampleMeta : TransactionMetadata String :=
  { txHash := "H1", trunkHash := "T1", branchHash := "B1", bundleHash := "BU1",
    solid := true, confirmed := true, conflicting := false, isHead := true, isTail := false,
    isValue := false, confirmationIndex := 7 }

/-- The stores of the end-to-end example: `H1` has a record and metadata, `H2`
has metadata only; hashes are their own textual form; every write succeeds. -/
def exampleEnv : Env String String :=
  { hashTrytes := id,
    GetCachedTransactionOrNil := fun h => if h = "H1" then some "raw1" else none,
    TransactionToTrytes := fun _ => .ok "AAA...999",
    GetCachedTxMetadataOrNil := fun h =>
      if h = "H1" then some exampleMeta
      else if h = "H2" then some { exampleMeta with txHash := "H2" }
      else none,
    MarshalIndent := jsonMarshalIndent,
    writeOutcome := fun _ => .ok }

/-- The text written for `H1` in the end-to-end example. -/
def exampleText : String :=
  "\x7b\n    \"TxHash\": \"H1\",\n    \"TrunkHash\": \"T1\",\n    \"BranchHash\": \"B1\",\n    \"BundleHash\": \"B1\",\n    \"IsSolid\": true,\n    \"IsConfirmed\": true,\n    \"IsConflicting\": false,\n    \"IsHead\": true,\n    \"IsTail\": false,\n    \"IsValue\": false,\n    \"Trytes\": \"AAA...999\"\n\x7d\n"

/-- Stores whose `MarshalIndent` fails on every row. -/
def marshalFailEnv : Env String String :=
  { exampleEnv with MarshalIndent := fun _ _ _ => .error "unsupported value" }

/-- Stores whose every `WriteString` fails after three bytes. -/
def writeFailEnv : Env String String :=
  { exampleEnv with writeOutcome := fun _ => .fail 3 }

/-! ## Lemmas -/

section Lemmas

variable {Hash Tx : Type}

theorem writeToFile_f (env : Env Hash Tx) (s : RunState) (d : Dump) :
    (writeToFile env s d).1.f =
      match env.MarshalIndent d "" "    " with
      | .error _ => s.f
      | .ok js => (s.f.WriteString (env.writeOutcome s.f.calls) (js ++ "\n")).1 := by
  unfold writeToFile
  cases env.MarshalIndent d "" "    " with
  | error e => rfl
  | ok js =>
    simp only
    rcases hw : s.f.WriteString (env.writeOutcome s.f.calls) (js ++ "\n") with ⟨f', b⟩
    cases b <;> rfl

theorem writeToFile_ok (env : Env Hash Tx) (s : RunState) (d : Dump) :
    (writeToFile env s d).2 =
      match env.MarshalIndent d "" "    " with
      | .error _ => false
      | .ok js => (s.f.WriteString (env.writeOutcome s.f.calls) (js ++ "\n")).2 := by
  unfold writeToFile
  cases env.MarshalIndent d "" "    " with
  | error e => rfl
  | ok js =>
    simp only
    rcases hw : s.f.WriteString (env.writeOutcome s.f.calls) (js ++ "\n") with ⟨f', b⟩
    cases b <;> rfl

theorem writeToFile_counters (env : Env Hash Tx) (s : RunState) (d : Dump) :
    (writeToFile env s d).1.totalCount = s.totalCount ∧
    (writeToFile env s d).1.successCount = s.successCount ∧
    (writeToFile env s d).1.txAcquired = s.txAcquired ∧
    (writeToFile env s d).1.txReleased = s.txReleased ∧
    (writeToFile env s d).1.metaAcquired = s.metaAcquired ∧
    (writeToFile env s d).1.metaReleased = s.metaReleased := by
  unfold writeToFile
  cases env.MarshalIndent d "" "    " with
  | error e => simp [RunState.println]
  | ok js =>
    simp only
    rcases hw : s.f.WriteString (env.writeOutcome s.f.calls) (js ++ "\n") with ⟨f', b⟩
    cases b <;> simp [RunState.println]

theorem callback_continue (env : Env Hash Tx) (s : RunState) (h : Hash) :
    (callback env s h).2 = true := by
  unfold callback
  cases env.GetCachedTransactionOrNil h with
  | none => rfl
  | some tx =>
    simp only
    cases env.TransactionToTrytes tx with
    | error e => rfl
    | ok t =>
      simp only
      cases env.GetCachedTxMetadataOrNil h with
      | none => rfl
      | some m =>
        simp only
        rcases hw : writeToFile env _ (buildDump env m t) with ⟨s', b⟩
        cases b <;> rfl

theorem callback_spec (env : Env Hash Tx) (s : RunState) (h : Hash) :
    (callback env s h).1.totalCount = s.totalCount + 1 ∧
    (callback env s h).1.f =
      (match rowText env h with
       | none => s.f
       | some str => (s.f.WriteString (env.writeOutcome s.f.calls) str).1) ∧
    (callback env s h).1.successCount = s.successCount +
      (match rowText env h with
       | none => 0
       | some str => if (s.f.WriteString (env.writeOutcome s.f.calls) str).2 then 1 else 0) ∧
    (callback env s h).1.txAcquired = s.txAcquired + txHandles env h ∧
    (callback env s h).1.txReleased = s.txReleased + txHandles env h ∧
    (callback env s h).1.metaAcquired = s.metaAcquired + metaHandles env h ∧
    (callback env s h).1.metaReleased = s.metaReleased + metaHandles env h := by
  unfold callback rowText txHandles metaHandles
  cases env.GetCachedTransactionOrNil h with
  | none => simp [RunState.println]
  | some tx =>
    simp only
    cases env.TransactionToTrytes tx with
    | error e => simp [RunState.println]
    | ok t =>
      simp only
      cases env.GetCachedTxMetadataOrNil h with
      | none => simp [RunState.println]
      | some m =>
        simp only
        have hf := writeToFile_f env { s with totalCount := s.totalCount + 1, txAcquired := s.txAcquired + 1, metaAcquired := s.metaAcquired + 1 } (buildDump env m t)
        have hb := writeToFile_ok env { s with totalCount := s.totalCount + 1, txAcquired := s.txAcquired + 1, metaAcquired := s.metaAcquired + 1 } (buildDump env m t)
        have hc := writeToFile_counters env { s with totalCount := s.totalCount + 1, txAcquired := s.txAcquired + 1, metaAcquired := s.metaAcquired + 1 } (buildDump env m t)
        rcases hw : writeToFile env { s with totalCount := s.totalCount + 1, txAcquired := s.txAcquired + 1, metaAcquired := s.metaAcquired + 1 } (buildDump env m t) with ⟨s', b⟩
        rw [hw] at hf hb hc
        simp only at hf hb hc
        obtain ⟨h1, h2, h3, h4, h5, h6⟩ := hc
        cases hm : env.MarshalIndent (buildDump env m t) "" "    " with
        | error e =>
          rw [hm] at hf hb
          simp only at hf hb
          subst hb
          simp [h1, h2, h3, h4, h5, h6, hf]
        | ok js =>
          rw [hm] at hf hb
          simp only at hf hb
          cases b <;> simp [h1, h2, h3, h4, h5, h6, hf, ← hb]

theorem exportAll_nil (env : Env Hash Tx) (s : RunState) : exportAll env [] s = s := rfl

theorem exportAll_cons (env : Env Hash Tx) (h : Hash) (t : List Hash) (s : RunState) :
    exportAll env (h :: t) s = exportAll env t (callback env s h).1 := by
  have hc := callback_continue env s h
  rcases hcb : callback env s h with ⟨s', b⟩
  rw [hcb] at hc
  simp only at hc
  subst hc
  simp [exportAll, ForEachTransactionMetadataHash, hcb]

theorem exportAll_append (env : Env Hash Tx) (xs ys : List Hash) (s : RunState) :
    exportAll env (xs ++ ys) s = exportAll env ys (exportAll env xs s) := by
  induction xs generalizing s with
  | nil => rfl
  | cons x xs ih => simp [exportAll_cons, ih]

theorem itemSucceeds_eq (env : Env Hash Tx) (s : RunState) (h : Hash) :
    itemSucceeds env s h =
      match rowText env h with
      | none => false
      | some str => (s.f.WriteString (env.writeOutcome s.f.calls) str).2 := by
  unfold itemSucceeds rowText
  cases env.GetCachedTransactionOrNil h with
  | none => rfl
  | some tx =>
    simp only
    cases env.TransactionToTrytes tx with
    | error e => rfl
    | ok t =>
      simp only
      cases env.GetCachedTxMetadataOrNil h with
      | none => rfl
      | some m =>
        simp only
        rw [writeToFile_ok]
        cases env.MarshalIndent (buildDump env m t) "" "    " <;> rfl

theorem callback_successCount (env : Env Hash Tx) (s : RunState) (h : Hash) :
    (callback env s h).1.successCount = s.successCount + if itemSucceeds env s h then 1 else 0 := by
  rw [(callback_spec env s h).2.2.1, itemSucceeds_eq]
  cases rowText env h <;> simp

theorem exportAll_totalCount (env : Env Hash Tx) (index : List Hash) (s : RunState) :
    (exportAll env index s).totalCount = s.totalCount + index.length := by
  induction index generalizing s with
  | nil => simp [exportAll_nil]
  | cons x xs ih =>
    rw [exportAll_cons, ih, (callback_spec env s x).1, List.length_cons]
    omega

theorem exportAll_snoc (env : Env Hash Tx) (xs : List Hash) (x : Hash) (s : RunState) :
    exportAll env (xs ++ [x]) s = (callback env (exportAll env xs s) x).1 := by
  rw [exportAll_append, exportAll_cons, exportAll_nil]

theorem exportAll_successCount (env : Env Hash Tx) (index : List Hash) (s : RunState) :
    (exportAll env index s).successCount = s.successCount + successfulEntries env index s := by
  induction index using List.reverseRecOn with
  | nil => simp [exportAll_nil, successfulEntries]
  | append_singleton xs x ih =>
    rw [exportAll_snoc, callback_successCount, ih]
    unfold successfulEntries
    rw [List.length_append, List.length_singleton, List.range_succ, List.countP_append]
    have h1 : List.countP (fun i =>
          match (xs ++ [x])[i]? with
          | some h => itemSucceeds env (exportAll env ((xs ++ [x]).take i) s) h
          | none => false) (List.range xs.length) =
        List.countP (fun i =>
          match xs[i]? with
          | some h => itemSucceeds env (exportAll env (xs.take i) s) h
          | none => false) (List.range xs.length) := by
      apply List.countP_congr
      intro i hi
      have hlt : i < xs.length := List.mem_range.mp hi
      rw [List.getElem?_append_left hlt, List.take_append_of_le_length (le_of_lt hlt)]
    rw [h1]
    simp [List.countP_cons, List.countP_nil, Nat.add_assoc]

theorem exportAll_success_le (env : Env Hash Tx) (index : List Hash) (s : RunState)
    (hs : s.successCount ≤ s.totalCount) :
    (exportAll env index s).successCount ≤ (exportAll env index s).totalCount := by
  induction index generalizing s with
  | nil => simpa [exportAll_nil] using hs
  | cons x xs ih =>
    rw [exportAll_cons]
    apply ih
    rw [(callback_spec env s x).1, callback_successCount]
    split <;> omega

theorem rowText_of_recoverableFailure (env : Env Hash Tx) (h : Hash)
    (hf : recoverableFailure env h = true) : rowText env h = none := by
  unfold recoverableFailure at hf
  unfold rowText
  cases h1 : env.GetCachedTransactionOrNil h with
  | none => rfl
  | some tx =>
    rw [h1] at hf
    simp only at hf ⊢
    cases h2 : env.TransactionToTrytes tx with
    | error e => rfl
    | ok t =>
      rw [h2] at hf
      simp only at hf ⊢
      cases h3 : env.GetCachedTxMetadataOrNil h with
      | none => rfl
      | some m =>
        rw [h3] at hf
        simp only at hf ⊢
        cases h4 : env.MarshalIndent (buildDump env m t) "" "    " with
        | error e => rfl
        | ok js => rw [h4] at hf; simp at hf

theorem callback_log_of_recoverableFailure (env : Env Hash Tx) (s : RunState) (h : Hash)
    (hf : recoverableFailure env h = true) :
    (callback env s h).1.log.length = s.log.length + 1 := by
  unfold recoverableFailure at hf
  unfold callback
  cases h1 : env.GetCachedTransactionOrNil h with
  | none => simp [RunState.println]
  | some tx =>
    rw [h1] at hf
    simp only at hf ⊢
    cases h2 : env.TransactionToTrytes tx with
    | error e => simp [RunState.println]
    | ok t =>
      rw [h2] at hf
      simp only at hf ⊢
      cases h3 : env.GetCachedTxMetadataOrNil h with
      | none => simp [RunState.println]
      | some m =>
        rw [h3] at hf
        simp only at hf ⊢
        cases h4 : env.MarshalIndent (buildDump env m t) "" "    " with
        | error e => simp [writeToFile, h4, RunState.println]
        | ok js => rw [h4] at hf; simp at hf

theorem callback_agree (env : Env Hash Tx) (s1 s2 : RunState) (h : Hash)
    (hf : s1.f = s2.f) (hs : s1.successCount = s2.successCount) :
    (callback env s1 h).1.f = (callback env s2 h).1.f ∧
    (callback env s1 h).1.successCount = (callback env s2 h).1.successCount := by
  rw [(callback_spec env s1 h).2.1, (callback_spec env s2 h).2.1,
    (callback_spec env s1 h).2.2.1, (callback_spec env s2 h).2.2.1, hf, hs]
  exact ⟨rfl, rfl⟩

theorem exportAll_agree (env : Env Hash Tx) (index : List Hash) (s1 s2 : RunState)
    (hf : s1.f = s2.f) (hs : s1.successCount = s2.successCount) :
    (exportAll env index s1).f = (exportAll env index s2).f ∧
    (exportAll env index s1).successCount = (exportAll env index s2).successCount := by
  induction index generalizing s1 s2 with
  | nil => exact ⟨hf, hs⟩
  | cons x xs ih =>
    rw [exportAll_cons, exportAll_cons]
    exact ih _ _ (callback_agree env s1 s2 x hf hs).1 (callback_agree env s1 s2 x hf hs).2

theorem exportAll_handles (env : Env Hash Tx) (index : List Hash) (s : RunState) :
    (exportAll env index s).txAcquired = s.txAcquired + (index.map (txHandles env)).sum ∧
    (exportAll env index s).txReleased = s.txReleased + (index.map (txHandles env)).sum ∧
    (exportAll env index s).metaAcquired = s.metaAcquired + (index.map (metaHandles env)).sum ∧
    (exportAll env index s).metaReleased = s.metaReleased + (index.map (metaHandles env)).sum := by
  induction index generalizing s with
  | nil => simp [exportAll_nil]
  | cons x xs ih =>
    obtain ⟨-, -, -, h4, h5, h6, h7⟩ := callback_spec env s x
    obtain ⟨i1, i2, i3, i4⟩ := ih (callback env s x).1
    rw [exportAll_cons, i1, i2, i3, i4, h4, h5, h6, h7]
    simp only [List.map_cons, List.sum_cons]
    omega

theorem writeAt_end (W bs : Bytes) : writeAt W W.length bs = W ++ bs := by
  simp [writeAt]

theorem writeAt_overlay (W c bs : Bytes) :
    writeAt (W ++ c.drop W.length) W.length bs = (W ++ bs) ++ c.drop (W ++ bs).length := by
  simp [writeAt, List.drop_append, List.take_append_eq_append_take, Nat.add_comm]

theorem WriteString_overlay (c : Bytes) (f1 f2 : File) (o : WriteOutcome) (str : String)
    (hov : Overlay c f1 f2) :
    Overlay c (f1.WriteString o str).1 (f2.WriteString o str).1 := by
  obtain ⟨a1, a2, o1, o2, hc, hcont⟩ := hov
  cases o with
  | ok =>
    simp only [File.WriteString, a1, a2, o1, o2, hcont, Overlay, hc]
    refine ⟨trivial, trivial, ?_, ?_, trivial, ?_⟩
    · simp [writeAt_end]
    · simp [writeAt_end]
    · simp only [Bool.false_eq_true, if_false]
      rw [writeAt_overlay, writeAt_end]
  | fail n =>
    simp only [File.WriteString, a1, a2, o1, o2, hcont, Overlay, hc]
    refine ⟨trivial, trivial, ?_, ?_, trivial, ?_⟩
    · simp [writeAt_end]
    · simp [writeAt_end]
    · simp only [Bool.false_eq_true, if_false]
      rw [writeAt_overlay, writeAt_end]

theorem callback_overlay (env : Env Hash Tx) (c : Bytes) (s1 s2 : RunState) (h : Hash)
    (hov : Overlay c s1.f s2.f) :
    Overlay c (callback env s1 h).1.f (callback env s2 h).1.f := by
  rw [(callback_spec env s1 h).2.1, (callback_spec env s2 h).2.1]
  cases rowText env h with
  | none => exact hov
  | some str =>
    simp only
    rw [hov.2.2.2.2.1]
    exact WriteString_overlay c _ _ _ _ hov

theorem exportAll_overlay (env : Env Hash Tx) (c : Bytes) (index : List Hash)
    (s1 s2 : RunState) (hov : Overlay c s1.f s2.f) :
    Overlay c (exportAll env index s1).f (exportAll env index s2).f := by
  induction index generalizing s1 s2 with
  | nil => exact hov
  | cons x xs ih =>
    rw [exportAll_cons, exportAll_cons]
    exact ih _ _ (callback_overlay env c s1 s2 x hov)

theorem exportAll_all_ok (env : Env Hash Tx) (hok : ∀ n, env.writeOutcome n = .ok)
    (index : List Hash) (s : RunState)
    (ha : s.f.append = false) (ho : s.f.offset = s.f.content.length) :
    (exportAll env index s).f.append = false ∧
    (exportAll env index s).f.offset = (exportAll env index s).f.content.length ∧
    (exportAll env index s).f.content
      = s.f.content ++ (index.filterMap (rowText env)).flatMap utf8 ∧
    (exportAll env index s).successCount
      = s.successCount + (index.filterMap (rowText env)).length := by
  induction index generalizing s with
  | nil => simp [exportAll_nil, ha, ho]
  | cons x xs ih =>
    obtain ⟨-, hf, hs, -⟩ := callback_spec env s x
    rw [exportAll_cons]
    cases hr : rowText env x with
    | none =>
      rw [hr] at hf hs
      simp only at hf hs
      obtain ⟨i1, i2, i3, i4⟩ := ih (callback env s x).1 (by rw [hf]; exact ha) (by rw [hf]; exact ho)
      refine ⟨i1, i2, ?_, ?_⟩
      · rw [i3, hf]; simp [hr]
      · rw [i4, hs]; simp [hr]
    | some str =>
      rw [hr, hok] at hf hs
      simp only [File.WriteString, ha, ho] at hf hs
      obtain ⟨i1, i2, i3, i4⟩ := ih (callback env s x).1 (by rw [hf])
        (by rw [hf]; simp [writeAt_end])
      refine ⟨i1, i2, ?_, ?_⟩
      · rw [i3, hf]; simp [hr, writeAt_end]
      · rw [i4, hs]; simp [hr]; omega

theorem jsonMarshalIndent_confirmationIndex (d : Dump) (n : Nat) (pfx indent : String) :
    jsonMarshalIndent { d with confirmationIndex := n } pfx indent
      = jsonMarshalIndent d pfx indent := rfl

theorem writeToFile_confirmationIndex (env : Env Hash Tx)
    (henv : env.MarshalIndent = jsonMarshalIndent) (s : RunState) (d : Dump) (n : Nat) :
    writeToFile env s { d with confirmationIndex := n } = writeToFile env s d := by
  unfold writeToFile
  rw [henv]
  rfl

end Lemmas

/-! ## The claims -/

section Claims

variable {Hash Tx : Type}

set_option maxRecDepth 100000

/-- C1: run over an index of length N from the state of line 59 ends with
`totalCount = N`; the callback returns `true` on every path and adds exactly one
to `totalCount` on every call. -/
theorem totalCount_eq_index_length (env : Env Hash Tx) (index : List Hash) (f : File) :
    (exportAll env index (RunState.init f)).totalCount = index.length ∧
    ∀ (s : RunState) (h : Hash),
      (callback env s h).2 = true ∧ (callback env s h).1.totalCount = s.totalCount + 1 := by
  refine ⟨?_, fun s h => ⟨callback_continue env s h, (callback_spec env s h).1⟩⟩
  rw [exportAll_totalCount]
  simp [RunState.init]

/-- C2: after the run `successCount` is the number of index entries for which
the record lookup, the decoding, the metadata lookup and `writeToFile` all
succeed, and `successCount ≤ totalCount` holds after every processed prefix of
the index (the whole index included). -/
theorem successCount_eq_successfulEntries (env : Env Hash Tx) (index : List Hash) (f : File) :
    (exportAll env index (RunState.init f)).successCount
        = successfulEntries env index (RunState.init f) ∧
    ∀ k : Nat, (exportAll env (index.take k) (RunState.init f)).successCount
        ≤ (exportAll env (index.take k) (RunState.init f)).totalCount := by
  refine ⟨?_, fun k => exportAll_success_le env _ _ (by simp [RunState.init])⟩
  rw [exportAll_successCount]
  simp [RunState.init]

/-- C4 (code evaluated): the row copies the trunk and branch hashes, the five
flags, the confirmation state and the decoded text verbatim, but its
`BundleHash` is the textual form of the metadata's branch hash; on the metadata
of the end-to-end example (branch `B1`, bundle `BU1`) the row's `BundleHash` is
`B1`, not `BU1`. -/
theorem bundleHash_copied_from_branchHash (env : Env Hash Tx) (m : TransactionMetadata Hash)
    (t : Trytes) :
    ((buildDump env m t).TrunkHash = env.hashTrytes m.GetTrunkHash ∧
     (buildDump env m t).BranchHash = env.hashTrytes m.GetBranchHash ∧
     (buildDump env m t).BundleHash = env.hashTrytes m.GetBranchHash ∧
     (buildDump env m t).IsSolid = m.IsSolid ∧
     (buildDump env m t).IsConflicting = m.IsConflicting ∧
     (buildDump env m t).IsValue = m.IsValue ∧
     (buildDump env m t).IsHead = m.IsHead ∧
     (buildDump env m t).IsTail = m.IsTail ∧
     ((buildDump env m t).IsConfirmed, (buildDump env m t).confirmationIndex) = m.GetConfirmed ∧
     (buildDump env m t).Trytes = t) ∧
    ((buildDump exampleEnv exampleMeta "AAA...999").BundleHash = "B1" ∧
     exampleEnv.hashTrytes exampleMeta.GetBundleHash = "BU1" ∧
     (buildDump exampleEnv exampleMeta "AAA...999").BundleHash
       ≠ exampleEnv.hashTrytes exampleMeta.GetBundleHash) := by
  refine ⟨⟨rfl, rfl, rfl, rfl, rfl, rfl, rfl, rfl, rfl, rfl⟩, ?_⟩
  decide

/-- C5 (as stated, refuted): the run over `[H1]` writes the bytes of
`exampleText`; on an output file that already holds the three bytes `old` the
file afterwards is those bytes alone, not `old` followed by them: its first
three bytes have changed and its length is not the sum of the two lengths. -/
theorem existing_content_overwritten :
    (exportAll exampleEnv ["H1"] (RunState.init freshFile)).f.content = utf8 exampleText ∧
    (openFile mainFlags (some [111, 108, 100])).toOption.map
        (fun f => (exportAll exampleEnv ["H1"] (RunState.init f)).f.content)
      = some (utf8 exampleText) ∧
    utf8 exampleText ≠ [111, 108, 100] ++ utf8 exampleText ∧
    (utf8 exampleText).take 3 ≠ [111, 108, 100] ∧
    (utf8 exampleText).length ≠ 3 + (utf8 exampleText).length := by
  decide

/-- C5 (amended): `main` opens the output file at offset 0 without truncating
it, so a run lays its bytes over the existing contents from the start: with `W`
the bytes the run leaves in a file that did not exist, a file that held `c`
afterwards holds `W` followed by the bytes of `c` beyond position `|W|`; a second
run against the same stores leaves the file as the first run left it. -/
theorem content_overlays_existing (env : Env Hash Tx) (index : List Hash) (c : Bytes) :
    ∃ f0 f1 f2 : File,
      openFile mainFlags none = .ok f0 ∧
      openFile mainFlags (some c) = .ok f1 ∧
      (exportAll env index (RunState.init f1)).f.content
        = (exportAll env index (RunState.init f0)).f.content
          ++ c.drop (exportAll env index (RunState.init f0)).f.content.length ∧
      openFile mainFlags (some (exportAll env index (RunState.init f1)).f.content) = .ok f2 ∧
      (exportAll env index (RunState.init f2)).f.content
        = (exportAll env index (RunState.init f1)).f.content := by
  have key : ∀ c' : Bytes,
      (exportAll env index (RunState.init
          { content := c', offset := 0, append := false, calls := 0 })).f.content
        = (exportAll env index (RunState.init freshFile)).f.content
          ++ c'.drop (exportAll env index (RunState.init freshFile)).f.content.length := by
    intro c'
    have hov : Overlay c' (RunState.init { content := c', offset := 0, append := false, calls := 0 }).f
        (RunState.init freshFile).f := by
      simp [Overlay, RunState.init, freshFile]
    exact (exportAll_overlay env c' index _ _ hov).2.2.2.2.2
  refine ⟨freshFile, { content := c, offset := 0, append := false, calls := 0 },
    { content := (exportAll env index (RunState.init
        { content := c, offset := 0, append := false, calls := 0 })).f.content,
      offset := 0, append := false, calls := 0 }, rfl, rfl, key c, rfl, ?_⟩
  rw [key, key c]
  simp

/-- C6: when `h` is a recoverable failure (record absent, decode error, metadata
absent or serialization failure), visiting `h` leaves the output file and
`successCount` as they were, adds one to `totalCount` and logs one line; the run
over `xs ++ [h] ++ ys` ends with the same file and `successCount` as the run over
`xs ++ ys`, and with `totalCount` larger by one. -/
theorem failure_isolated (env : Env Hash Tx) (xs ys : List Hash) (h : Hash) (s : RunState)
    (hfail : recoverableFailure env h = true) :
    (callback env (exportAll env xs s) h).1.f = (exportAll env xs s).f ∧
    (callback env (exportAll env xs s) h).1.successCount = (exportAll env xs s).successCount ∧
    (callback env (exportAll env xs s) h).1.totalCount = (exportAll env xs s).totalCount + 1 ∧
    (callback env (exportAll env xs s) h).1.log.length = (exportAll env xs s).log.length + 1 ∧
    (exportAll env (xs ++ [h] ++ ys) s).f = (exportAll env (xs ++ ys) s).f ∧
    (exportAll env (xs ++ [h] ++ ys) s).successCount = (exportAll env (xs ++ ys) s).successCount ∧
    (exportAll env (xs ++ [h] ++ ys) s).totalCount = (exportAll env (xs ++ ys) s).totalCount + 1 := by
  have hr := rowText_of_recoverableFailure env h hfail
  obtain ⟨ht, hf, hs, -⟩ := callback_spec env (exportAll env xs s) h
  rw [hr] at hf hs
  simp only [Nat.add_zero] at hf hs
  have hag := exportAll_agree env ys _ _ hf hs
  refine ⟨hf, hs, ht, callback_log_of_recoverableFailure env _ h hfail, ?_, ?_, ?_⟩
  · rw [exportAll_append, exportAll_snoc, exportAll_append]
    exact hag.1
  · rw [exportAll_append, exportAll_snoc, exportAll_append]
    exact hag.2
  · rw [exportAll_totalCount, exportAll_totalCount]
    simp only [List.length_append, List.length_singleton]
    omega

/-- Witness of C6: `H2`, whose record is absent, between two visits of `H1`. -/
theorem failure_isolated_witness :
    recoverableFailure exampleEnv "H2" = true ∧
    ((callback exampleEnv (exportAll exampleEnv ["H1"] (RunState.init freshFile)) "H2").1.f
        = (exportAll exampleEnv ["H1"] (RunState.init freshFile)).f ∧
     (callback exampleEnv (exportAll exampleEnv ["H1"] (RunState.init freshFile)) "H2").1.successCount
        = (exportAll exampleEnv ["H1"] (RunState.init freshFile)).successCount ∧
     (callback exampleEnv (exportAll exampleEnv ["H1"] (RunState.init freshFile)) "H2").1.totalCount
        = (exportAll exampleEnv ["H1"] (RunState.init freshFile)).totalCount + 1 ∧
     (callback exampleEnv (exportAll exampleEnv ["H1"] (RunState.init freshFile)) "H2").1.log.length
        = (exportAll exampleEnv ["H1"] (RunState.init freshFile)).log.length + 1 ∧
     (exportAll exampleEnv (["H1"] ++ ["H2"] ++ ["H1"]) (RunState.init freshFile)).f
        = (exportAll exampleEnv (["H1"] ++ ["H1"]) (RunState.init freshFile)).f ∧
     (exportAll exampleEnv (["H1"] ++ ["H2"] ++ ["H1"]) (RunState.init freshFile)).successCount
        = (exportAll exampleEnv (["H1"] ++ ["H1"]) (RunState.init freshFile)).successCount ∧
     (exportAll exampleEnv (["H1"] ++ ["H2"] ++ ["H1"]) (RunState.init freshFile)).totalCount
        = (exportAll exampleEnv (["H1"] ++ ["H1"]) (RunState.init freshFile)).totalCount + 1) :=
  ⟨rfl, failure_isolated exampleEnv ["H1"] ["H1"] "H2" (RunState.init freshFile) rfl⟩

/-- C7: every call of the callback acquires and releases the same number of
record handles (one if the record lookup returned a record, none if it returned
nil) and the same number of metadata handles (one if the metadata lookup was
reached and returned metadata, none otherwise), so the number of outstanding
handles is unchanged by every call and is zero after every prefix of the run. -/
theorem handles_balanced (env : Env Hash Tx) (index : List Hash) (f : File) :
    (∀ (s : RunState) (h : Hash),
      (callback env s h).1.txAcquired = s.txAcquired + txHandles env h ∧
      (callback env s h).1.txReleased = s.txReleased + txHandles env h ∧
      (callback env s h).1.metaAcquired = s.metaAcquired + metaHandles env h ∧
      (callback env s h).1.metaReleased = s.metaReleased + metaHandles env h ∧
      (callback env s h).1.outstanding = s.outstanding ∧
      txHandles env h = (if (env.GetCachedTransactionOrNil h).isSome then 1 else 0) ∧
      metaHandles env h ≤ (if (env.GetCachedTxMetadataOrNil h).isSome then 1 else 0)) ∧
    (∀ k : Nat,
      (exportAll env (index.take k) (RunState.init f)).txAcquired
        = (exportAll env (index.take k) (RunState.init f)).txReleased ∧
      (exportAll env (index.take k) (RunState.init f)).metaAcquired
        = (exportAll env (index.take k) (RunState.init f)).metaReleased ∧
      (exportAll env (index.take k) (RunState.init f)).txAcquired
        = ((index.take k).map (txHandles env)).sum ∧
      (exportAll env (index.take k) (RunState.init f)).metaAcquired
        = ((index.take k).map (metaHandles env)).sum ∧
      (exportAll env (index.take k) (RunState.init f)).outstanding = 0) := by
  constructor
  · intro s h
    obtain ⟨-, -, -, h4, h5, h6, h7⟩ := callback_spec env s h
    refine ⟨h4, h5, h6, h7, ?_, ?_, ?_⟩
    · simp only [RunState.outstanding, h4, h5, h6, h7]
      push_cast
      ring
    · unfold txHandles
      cases env.GetCachedTransactionOrNil h <;> rfl
    · unfold metaHandles
      cases env.GetCachedTransactionOrNil h with
      | none => simp
      | some tx =>
        simp only
        cases env.TransactionToTrytes tx with
        | error e => simp
        | ok t =>
          simp only
          cases env.GetCachedTxMetadataOrNil h <;> simp
  · intro k
    obtain ⟨i1, i2, i3, i4⟩ := exportAll_handles env (index.take k) (RunState.init f)
    refine ⟨by rw [i1, i2]; rfl, by rw [i3, i4]; rfl, by rw [i1]; simp [RunState.init],
      by rw [i3]; simp [RunState.init], ?_⟩
    have e1 : (exportAll env (index.take k) (RunState.init f)).txAcquired
        = (exportAll env (index.take k) (RunState.init f)).txReleased := by rw [i1, i2]; rfl
    have e2 : (exportAll env (index.take k) (RunState.init f)).metaAcquired
        = (exportAll env (index.take k) (RunState.init f)).metaReleased := by rw [i3, i4]; rfl
    simp only [RunState.outstanding, e1, e2]
    ring

/-- C8: `writeToFile` returns false and leaves the file untouched when
`MarshalIndent` fails; when it succeeds with text `js`, the string handed to
`WriteString` is `js` followed by one newline, the result is false when that
write fails and true when it succeeds, in which case the bytes of `js` and one
newline byte are stored at the write position. When every write succeeds, the
file of a run started on a new file is the concatenation, in index order, of the
texts of the entries that reach the write, and `successCount` is their number. -/
theorem writeToFile_contract (env : Env Hash Tx) (s : RunState) (dump : Dump) :
    (∀ err, env.MarshalIndent dump "" "    " = .error err →
      (writeToFile env s dump).2 = false ∧ (writeToFile env s dump).1.f = s.f) ∧
    (∀ js, env.MarshalIndent dump "" "    " = .ok js →
      (writeToFile env s dump).1.f
        = (s.f.WriteString (env.writeOutcome s.f.calls) (js ++ "\n")).1 ∧
      utf8 (js ++ "\n") = utf8 js ++ [10] ∧
      (∀ n, env.writeOutcome s.f.calls = .fail n → (writeToFile env s dump).2 = false) ∧
      (env.writeOutcome s.f.calls = .ok →
        (writeToFile env s dump).2 = true ∧
        (writeToFile env s dump).1.f.content
          = writeAt s.f.content (if s.f.append then s.f.content.length else s.f.offset)
              (utf8 js ++ [10]))) ∧
    ((∀ n, env.writeOutcome n = .ok) → ∀ index : List Hash,
      (exportAll env index (RunState.init freshFile)).f.content
        = (index.filterMap (rowText env)).flatMap utf8 ∧
      (exportAll env index (RunState.init freshFile)).successCount
        = (index.filterMap (rowText env)).length) := by
  have hnl : ∀ js : String, utf8 (js ++ "\n") = utf8 js ++ [10] := by
    intro js
    simp [utf8, utf8EncodeNat]
  refine ⟨?_, ?_, ?_⟩
  · intro err he
    have h1 := writeToFile_ok env s dump
    have h2 := writeToFile_f env s dump
    rw [he] at h1 h2
    exact ⟨h1, h2⟩
  · intro js hj
    have h1 := writeToFile_ok env s dump
    have h2 := writeToFile_f env s dump
    rw [hj] at h1 h2
    simp only at h1 h2
    refine ⟨h2, hnl js, ?_, ?_⟩
    · intro n hn
      rw [h1, hn]
      rfl
    · intro ho
      rw [h1, h2, ho]
      refine ⟨rfl, ?_⟩
      simp only [File.WriteString]
      rw [hnl]
  · intro hok index
    obtain ⟨-, -, i3, i4⟩ := exportAll_all_ok env hok index (RunState.init freshFile) rfl rfl
    refine ⟨?_, ?_⟩
    · rw [i3]; simp [RunState.init, freshFile]
    · rw [i4]; simp [RunState.init]

/-- Witness of C8: a failing `MarshalIndent`, a failing write, a successful
write, and a run in which every write succeeds. -/
theorem writeToFile_contract_witness :
    ((writeToFile marshalFailEnv (RunState.init freshFile)
        (buildDump exampleEnv exampleMeta "AAA...999")).2 = false ∧
     (writeToFile marshalFailEnv (RunState.init freshFile)
        (buildDump exampleEnv exampleMeta "AAA...999")).1.f = freshFile) ∧
    (writeToFile writeFailEnv (RunState.init freshFile)
        (buildDump exampleEnv exampleMeta "AAA...999")).2 = false ∧
    (writeToFile exampleEnv (RunState.init freshFile)
        (buildDump exampleEnv exampleMeta "AAA...999")).2 = true ∧
    (exportAll exampleEnv ["H1", "H2", "H1"] (RunState.init freshFile)).f.content
        = (["H1", "H2", "H1"].filterMap (rowText exampleEnv)).flatMap utf8 :=
  ⟨(writeToFile_contract marshalFailEnv (RunState.init freshFile)
      (buildDump exampleEnv exampleMeta "AAA...999")).1 "unsupported value" rfl,
   ((writeToFile_contract writeFailEnv (RunState.init freshFile)
      (buildDump exampleEnv exampleMeta "AAA...999")).2.1
        (encodeObject "" "    " (buildDump exampleEnv exampleMeta "AAA...999").exportedFields)
        rfl).2.2.1 3 rfl,
   (((writeToFile_contract exampleEnv (RunState.init freshFile)
      (buildDump exampleEnv exampleMeta "AAA...999")).2.1
        (encodeObject "" "    " (buildDump exampleEnv exampleMeta "AAA...999").exportedFields)
        rfl).2.2.2 rfl).1,
   ((writeToFile_contract exampleEnv (RunState.init freshFile)
      (buildDump exampleEnv exampleMeta "AAA...999")).2.2 (fun _ => rfl) ["H1", "H2", "H1"]).1⟩

/-- C9: the end-to-end example. `main` on the index `[H1, H2]` ends with
`totalCount = 2` and `successCount = 1`, after exactly one `WriteString` call;
the file holds the serialization of the one row built for `H1`, which has
`TxHash = "H1"`, `Trytes = "AAA...999"`, `IsSolid = true` and
`IsConfirmed = true`; for `H2` nothing is written and the log reports its
record as not found. -/
theorem end_to_end_example :
    (main exampleEnv ["H1", "H2"] 10 "db" none).toOption.map
        (fun s => (s.totalCount, s.successCount, s.f.calls, s.f.content))
      = some (2, 1, 1, utf8 exampleText) ∧
    (main exampleEnv ["H1", "H2"] 10 "db" none).toOption.map (fun s => s.log)
      = some ["10", "H1  done...", "tx H2 not found: tx not found", "Total txs:  2",
          "Success:  1"] ∧
    rowText exampleEnv "H1" = some exampleText ∧
    rowText exampleEnv "H2" = none ∧
    (jsonMarshalIndent (buildDump exampleEnv exampleMeta "AAA...999") "" "    ").toOption.map
        (fun js => js ++ "\n") = some exampleText ∧
    (buildDump exampleEnv exampleMeta "AAA...999").TxHash = "H1" ∧
    (buildDump exampleEnv exampleMeta "AAA...999").Trytes = "AAA...999" ∧
    (buildDump exampleEnv exampleMeta "AAA...999").IsSolid = true ∧
    (buildDump exampleEnv exampleMeta "AAA...999").IsConfirmed = true := by
  decide

/-- C10: the confirmation index is stored in the row but not serialized. The
text `MarshalIndent` produces for a row is an object of exactly eleven members,
one per line and in this order: `TxHash`, `TrunkHash`, `BranchHash`,
`BundleHash`, `IsSolid`, `IsConfirmed`, `IsConflicting`, `IsHead`, `IsTail`,
`IsValue`, `Trytes`; rows that differ only in `confirmationIndex` have the same
text, and `writeToFile` acts identically on them. For the row of the end-to-end
example the text, and the bytes `writeToFile` stores, are those of `exampleText`
whatever the confirmation index. -/
theorem confirmationIndex_not_serialized (env : Env Hash Tx) (s : RunState) (d : Dump) (n : Nat)
    (pfx indent : String) (m : TransactionMetadata Hash) (t : Trytes) :
    (buildDump env m t).confirmationIndex = m.GetConfirmed.2 ∧
    d.exportedFields.map Prod.fst
      = ["TxHash", "TrunkHash", "BranchHash", "BundleHash", "IsSolid", "IsConfirmed",
          "IsConflicting", "IsHead", "IsTail", "IsValue", "Trytes"] ∧
    jsonMarshalIndent d pfx indent = .ok ("\n".intercalate
      [ "\x7b",
        pfx ++ indent ++ "\"TxHash\": " ++ encodeString d.TxHash ++ ",",
        pfx ++ indent ++ "\"TrunkHash\": " ++ encodeString d.TrunkHash ++ ",",
        pfx ++ indent ++ "\"BranchHash\": " ++ encodeString d.BranchHash ++ ",",
        pfx ++ indent ++ "\"BundleHash\": " ++ encodeString d.BundleHash ++ ",",
        pfx ++ indent ++ "\"IsSolid\": " ++ (if d.IsSolid then "true" else "false") ++ ",",
        pfx ++ indent ++ "\"IsConfirmed\": " ++ (if d.IsConfirmed then "true" else "false") ++ ",",
        pfx ++ indent ++ "\"IsConflicting\": " ++ (if d.IsConflicting then "true" else "false") ++ ",",
        pfx ++ indent ++ "\"IsHead\": " ++ (if d.IsHead then "true" else "false") ++ ",",
        pfx ++ indent ++ "\"IsTail\": " ++ (if d.IsTail then "true" else "false") ++ ",",
        pfx ++ indent ++ "\"IsValue\": " ++ (if d.IsValue then "true" else "false") ++ ",",
        pfx ++ indent ++ "\"Trytes\": " ++ encodeString d.Trytes,
        pfx ++ "\x7d" ]) ∧
    jsonMarshalIndent { d with confirmationIndex := n } pfx indent
      = jsonMarshalIndent d pfx indent ∧
    writeToFile { env with MarshalIndent := jsonMarshalIndent } s { d with confirmationIndex := n }
      = writeToFile { env with MarshalIndent := jsonMarshalIndent } s d ∧
    (jsonMarshalIndent
        { buildDump exampleEnv exampleMeta "AAA...999" with confirmationIndex := n } "" "    ").toOption.map
        (fun js => js ++ "\n") = some exampleText ∧
    (writeToFile exampleEnv (RunState.init freshFile)
        { buildDump exampleEnv exampleMeta "AAA...999" with confirmationIndex := n }).1.f.content
      = utf8 exampleText := by
  refine ⟨rfl, rfl, ?_, rfl, rfl, ?_, ?_⟩
  · have hf : d.exportedFields =
        [ ("TxHash", .str d.TxHash), ("TrunkHash", .str d.TrunkHash),
          ("BranchHash", .str d.BranchHash), ("BundleHash", .str d.BundleHash),
          ("IsSolid", .bool d.IsSolid), ("IsConfirmed", .bool d.IsConfirmed),
          ("IsConflicting", .bool d.IsConflicting), ("IsHead", .bool d.IsHead),
          ("IsTail", .bool d.IsTail), ("IsValue", .bool d.IsValue),
          ("Trytes", .str d.Trytes) ] := rfl
    unfold jsonMarshalIndent
    rw [hf]
    refine congrArg Except.ok ?_
    apply String.ext
    have k1 : (encodeString "TxHash").data = "\"TxHash\"".data := by decide
    have k2 : (encodeString "TrunkHash").data = "\"TrunkHash\"".data := by decide
    have k3 : (encodeString "BranchHash").data = "\"BranchHash\"".data := by decide
    have k4 : (encodeString "BundleHash").data = "\"BundleHash\"".data := by decide
    have k5 : (encodeString "IsSolid").data = "\"IsSolid\"".data := by decide
    have k6 : (encodeString "IsConfirmed").data = "\"IsConfirmed\"".data := by decide
    have k7 : (encodeString "IsConflicting").data = "\"IsConflicting\"".data := by decide
    have k8 : (encodeString "IsHead").data = "\"IsHead\"".data := by decide
    have k9 : (encodeString "IsTail").data = "\"IsTail\"".data := by decide
    have k10 : (encodeString "IsValue").data = "\"IsValue\"".data := by decide
    have k11 : (encodeString "Trytes").data = "\"Trytes\"".data := by decide
    have kb : (String.singleton (Char.ofNat 123)).data = "\x7b".data := by decide
    have ke : (String.singleton (Char.ofNat 125)).data = "\x7d".data := by decide
    simp only [encodeObject, List.map, encodeMember, encodeValue, String.intercalate,
      String.intercalate.go, String.data_append, List.append_assoc, k1, k2, k3, k4, k5, k6,
      k7, k8, k9, k10, k11, kb, ke]
    simp
  · rw [jsonMarshalIndent_confirmationIndex]
    decide
  · rw [writeToFile_confirmationIndex exampleEnv rfl]
    decide

end Claims

end HornetDbDump
